import Mathlib

/-!
Verification of the andrescris/firestore authentication and session layer.

The Go source is shallowly embedded: Firestore documents become association
lists of dynamically typed values, the Firestore client state becomes an
explicit `DB` value threaded through every operation, `time.Now()` becomes an
explicit `now : Nat` argument, and Go's unchecked type assertions become an
explicit `panicked` outcome.  Store/network I/O failures of the external
Firestore client are out of the modelled scope: the modelled store operations
always reach the store.
-/

namespace Firestore

/-- Dynamically typed Firestore field value, the embedding of Go
`interface{}` as used by this repository (strings, booleans, `time.Time`
values modelled as `Nat` instants, integers, the `IncrementValue` sentinel
from `lib/firebase`, and nested maps modelled as association lists). -/
inductive Value where
  | str (s : String)
  | bool (b : Bool)
  | time (t : Nat)
  | int (n : Int)
  | incr (n : Int)
  | map (m : List (String × Value))

/-- Document payload: a Go `map[string]interface{}`, modelled as an
association list without duplicate keys (first binding wins on lookup,
`setField` keeps keys unique). -/
abbrev DocData := List (String × Value)

mutual

/-- Equality test on dynamic values, the embedding of the equality the
Firestore server applies to `==` query filters. -/
def valueBeq : Value → Value → Bool
  | .str a, .str b => a == b
  | .bool a, .bool b => a == b
  | .time a, .time b => a == b
  | .int a, .int b => a == b
  | .incr a, .incr b => a == b
  | .map a, .map b => valuePairsBeq a b
  | _, _ => false

/-- Pointwise equality of two field lists (used by `valueBeq` on maps). -/
def valuePairsBeq : List (String × Value) → List (String × Value) → Bool
  | [], [] => true
  | (k1, v1) :: r1, (k2, v2) :: r2 => k1 == k2 && valueBeq v1 v2 && valuePairsBeq r1 r2
  | _, _ => false

end

/-- First binding of a key in a document payload (Go map read `data[k]`). -/
def getField (d : DocData) (k : String) : Option Value :=
  (d.find? (fun p => p.1 == k)).map (fun p => p.2)

/-- Go map write `data[k] = v`: replace the binding in place or append. -/
def setField : DocData → String → Value → DocData
  | [], k, v => [(k, v)]
  | (k0, v0) :: rest, k, v =>
      if k0 == k then (k, v) :: rest else (k0, v0) :: setField rest k v

/-- Whether a key is present in a payload. -/
def hasKey (d : DocData) (k : String) : Bool :=
  (getField d k).isSome

/-- Firestore `Set` with `MergeAll` semantics on a payload: fields of the
patch override the document, other fields stay untouched. -/
def mergeFields (d : DocData) (patch : DocData) : DocData :=
  patch.foldl (fun acc p => setField acc p.1 p.2) d

/-- Value of a key in a patch as used by a merge: the last binding wins
(later `foldl` steps of `mergeFields` overwrite earlier ones). -/
def patchGet : DocData → String → Option Value
  | [], _ => none
  | (k0, v0) :: rest, k =>
      match patchGet rest k with
      | some v => some v
      | none => if k0 == k then some v0 else none

/-- One stored Firestore document: collection name, document id, payload.
`(collection, docID)` is the primary key of the store. -/
structure FsDoc where
  collection : String
  docID : String
  data : DocData

/-- The Firestore client state: the stored documents plus a deterministic
supply for the random document ids `NewDoc`/`Add` generate. -/
structure DB where
  docs : List FsDoc
  nextAuto : Nat

/-- Deterministic stand-in for the random ids Firestore assigns. -/
def autoId (n : Nat) : String := "auto-" ++ toString n

/-- First document of a collection with a given id (the store's read). -/
def findDoc (docs : List FsDoc) (col id : String) : Option FsDoc :=
  docs.find? (fun d => d.collection == col && d.docID == id)

/-- Firestore `Doc(id).Set(data)` without merge: overwrite the document in
place, or create it when absent. -/
def putDocs (docs : List FsDoc) (col id : String) (d : DocData) : List FsDoc :=
  if docs.any (fun x => x.collection == col && x.docID == id) then
    docs.map (fun x =>
      if x.collection == col && x.docID == id then { x with data := d } else x)
  else docs ++ [⟨col, id, d⟩]

/-- Firestore `Doc(id).Set(patch, MergeAll)`: merge the patch into the
document, or create the document from the patch when absent. -/
def mergeDocs (docs : List FsDoc) (col id : String) (patch : DocData) : List FsDoc :=
  if docs.any (fun x => x.collection == col && x.docID == id) then
    docs.map (fun x =>
      if x.collection == col && x.docID == id then
        { x with data := mergeFields x.data patch }
      else x)
  else docs ++ [⟨col, id, mergeFields [] patch⟩]

/-- Error values of the library (`lib/firebase/errors.go` structured errors
plus the `fmt.Errorf` messages of the auth layer, with `%w` wrapping kept
structural). -/
inductive Err where
  | documentNotFound (collection docID : String)
  | userNotFound (identifier : String)
  | passwordHashNotFound
  | sessionExpired
  | sessionInactive
  | ofString (s : String)
  | wrapped (context : String) (inner : Err)
deriving DecidableEq

/-- Result of a Go call that can also die on an unchecked type assertion:
`ok`, a returned `error`, or a runtime panic. -/
inductive GoResult (ε α : Type) where
  | ok (a : α)
  | err (e : ε)
  | panicked

/-- firestore.go `GetDocument`: the stored payload, or `DocumentNotFoundError`. -/
def getDocument (db : DB) (col id : String) : Except Err DocData :=
  match findDoc db.docs col id with
  | some d => .ok d.data
  | none => .error (.documentNotFound col id)

/-- firestore.go `CreateDocument`: stamps `created_at`/`updated_at` into the
caller's map, then `Add`s the document under a fresh id.  Returns the new id,
the new store, and the caller's map as the caller observes it after the call
(Go maps are references, so the caller sees the stamped map). -/
def createDocument (now : Nat) (db : DB) (col : String) (data : DocData) :
    String × DB × DocData :=
  let data2 := setField (setField data "created_at" (.time now)) "updated_at" (.time now)
  let id := autoId db.nextAuto
  (id, ⟨db.docs ++ [⟨col, id, data2⟩], db.nextAuto + 1⟩, data2)

/-- firestore.go `CreateDocumentWithID`: stamps timestamps into the caller's
map, then `Set`s (overwrites) the document at the given id. -/
def createDocumentWithID (now : Nat) (db : DB) (col id : String) (data : DocData) :
    DB × DocData :=
  let data2 := setField (setField data "created_at" (.time now)) "updated_at" (.time now)
  (⟨putDocs db.docs col id data2, db.nextAuto⟩, data2)

/-- firestore.go `UpdateDocument`: stamps `updated_at` into the caller's map,
then `Set`s it with `MergeAll`. -/
def updateDocument (now : Nat) (db : DB) (col id : String) (data : DocData) :
    DB × DocData :=
  let data2 := setField data "updated_at" (.time now)
  (⟨mergeDocs db.docs col id data2, db.nextAuto⟩, data2)

/-- `lib/firebase` `QueryFilter`. -/
structure QueryFilter where
  field : String
  operator : String
  value : Value

/-- `lib/firebase` `QueryOptions`. -/
structure QueryOptions where
  filters : List QueryFilter
  orderBy : String
  orderDir : String
  limit : Nat
  offset : Nat

/-- `lib/firebase` `Document` as returned by queries. -/
structure Document where
  id : String
  data : DocData

/-- Server-side evaluation of one query filter against a document (a filter
on a missing field matches nothing; comparison operators beyond the ones the
store defines match nothing). -/
def evalFilter (d : DocData) (f : QueryFilter) : Bool :=
  match getField d f.field with
  | none => false
  | some v =>
    if f.operator == "==" then valueBeq v f.value
    else if f.operator == "!=" then !(valueBeq v f.value)
    else false

/-- Server-side field ordering used by `OrderBy` (values of distinct dynamic
types are left unordered; the flows verified here never order queries). -/
def valueLeB : Value → Value → Bool
  | .int a, .int b => a ≤ b
  | .str a, .str b => a ≤ b
  | .bool a, .bool b => !a || b
  | .time a, .time b => a ≤ b
  | _, _ => false

/-- Ascending comparison of two documents on one field for `OrderBy`. -/
def docFieldLe (field : String) (a b : FsDoc) : Bool :=
  match getField a.data field, getField b.data field with
  | some va, some vb => valueLeB va vb
  | _, _ => true

/-- Insertion step of the ordering model. -/
def insertByField (le : FsDoc → FsDoc → Bool) (d : FsDoc) :
    List FsDoc → List FsDoc
  | [] => [d]
  | x :: xs => if le d x then d :: x :: xs else x :: insertByField le d xs

/-- Insertion sort modelling the server-side `OrderBy`. -/
def sortByField (le : FsDoc → FsDoc → Bool) : List FsDoc → List FsDoc
  | [] => []
  | x :: xs => insertByField le x (sortByField le xs)

/-- firestore.go `QueryDocuments`: filter by collection and filters, then
apply ordering, offset and limit exactly when the options request them. -/
def queryDocuments (db : DB) (col : String) (opts : QueryOptions) : List Document :=
  let base := db.docs.filter
    (fun d => d.collection == col && opts.filters.all (fun f => evalFilter d.data f))
  let ordered :=
    if opts.orderBy == "" then base
    else if opts.orderDir == "desc" then
      sortByField (fun a b => docFieldLe opts.orderBy b a) base
    else sortByField (docFieldLe opts.orderBy) base
  let off := if opts.offset > 0 then ordered.drop opts.offset else ordered
  let lim := if opts.limit > 0 then off.take opts.limit else off
  lim.map (fun d => ⟨d.docID, d.data⟩)

/-- `lib/firebase` `BatchOperation`. -/
structure BatchOp where
  type : String
  collection : String
  documentID : String
  data : DocData

/-- One write buffered in a Firestore batch before `Commit`. -/
inductive StagedWrite where
  | set (col id : String) (data : DocData)
  | setMerge (col id : String) (data : DocData)
  | del (col id : String)

/-- Applying one committed write to the store. -/
def applyStaged (docs : List FsDoc) : StagedWrite → List FsDoc
  | .set col id d => putDocs docs col id d
  | .setMerge col id d => mergeDocs docs col id d
  | .del col id => docs.filter (fun x => !(x.collection == col && x.docID == id))

/-- Committing a batch: the buffered writes applied in order. -/
def applyWrites (docs : List FsDoc) (ws : List StagedWrite) : List FsDoc :=
  ws.foldl applyStaged docs

/-- The staging loop of firestore.go `BatchWrite`: walks the operations,
stamps timestamps into each create/update payload (mutating the caller's
maps), buffers the writes, and stops with an error at the first unsupported
operation type, before anything is committed.  Returns the buffered writes
and id supply on success, and in both cases the caller's operation list as
the caller observes it after the loop (processed payloads stamped, the
failing operation and its suffix untouched). -/
def stageBatch (now : Nat) : Nat → List BatchOp →
    (Except String (List StagedWrite × Nat)) × List BatchOp
  | n, [] => (.ok ([], n), [])
  | n, op :: rest =>
    if op.type == "create" then
      let data2 := setField (setField op.data "created_at" (.time now)) "updated_at" (.time now)
      let id := if op.documentID == "" then autoId n else op.documentID
      let n2 := if op.documentID == "" then n + 1 else n
      match stageBatch now n2 rest with
      | (.ok (ws, n3), rest2) =>
          (.ok (.set op.collection id data2 :: ws, n3), { op with data := data2 } :: rest2)
      | (.error e, rest2) => (.error e, { op with data := data2 } :: rest2)
    else if op.type == "update" then
      let data2 := setField op.data "updated_at" (.time now)
      match stageBatch now n rest with
      | (.ok (ws, n3), rest2) =>
          (.ok (.setMerge op.collection op.documentID data2 :: ws, n3),
           { op with data := data2 } :: rest2)
      | (.error e, rest2) => (.error e, { op with data := data2 } :: rest2)
    else if op.type == "delete" then
      match stageBatch now n rest with
      | (.ok (ws, n3), rest2) => (.ok (.del op.collection op.documentID :: ws, n3), op :: rest2)
      | (.error e, rest2) => (.error e, op :: rest2)
    else (.error ("unsupported batch operation type: " ++ op.type), op :: rest)

/-- Outcome of firestore.go `BatchWrite`: the returned error value, the store
after the call, and the caller's operation list as observed after the call. -/
structure BatchOutcome where
  result : Except String Unit
  db : DB
  callerOps : List BatchOp

/-- firestore.go `BatchWrite`: stage every operation, then commit them all
atomically; an unsupported operation type aborts before the commit, leaving
the store untouched. -/
def batchWrite (now : Nat) (db : DB) (ops : List BatchOp) : BatchOutcome :=
  match stageBatch now db.nextAuto ops with
  | (.ok (ws, n), ops2) => ⟨.ok (), ⟨applyWrites db.docs ws, n⟩, ops2⟩
  | (.error e, ops2) => ⟨.error e, db, ops2⟩

/-- The operation types firestore.go `BatchWrite` accepts. -/
def supportedOpType (t : String) : Bool :=
  t == "create" || t == "update" || t == "delete"

end Firestore

namespace Auth

open Firestore

/-- 24 hours, the session lifetime `24 * time.Hour`, in seconds. -/
def hours24 : Nat := 24 * 3600

/-- `lib/firebase` `UserRecord`, restricted to the fields the login and
session flows read (the Directory collaborator owns the rest). -/
structure UserRecord where
  uid : String
  email : String
  displayName : String
  disabled : Bool
deriving DecidableEq

/-- auth.go `GetUserByEmail` against the external Directory, modelled as a
lookup in the Directory's user list; a miss is the wrapped client error. -/
def getUserByEmail (users : List UserRecord) (email : String) :
    Except Err UserRecord :=
  match users.find? (fun u => u.email == email) with
  | some u => .ok u
  | none => .error (.wrapped "failed to get user by email" (.userNotFound email))

/-- The environment a login flow runs against: the Directory's users and the
Firestore state. -/
structure Env where
  users : List UserRecord
  db : DB

/-- login_logout.go `LoginRequest`. -/
structure LoginRequest where
  email : String
  password : String

/-- login_logout.go `LoginResponse` (absent optional fields are Go zero
values: no user, empty token and session id, zero expiry, no claims). -/
structure LoginResponse where
  success : Bool
  message : String
  user : Option UserRecord
  customToken : String
  sessionID : String
  expiresAt : Nat
  claims : Option DocData

/-- login_logout.go `LogoutRequest`. -/
structure LogoutRequest where
  uid : String
  sessionID : String

/-- login_logout.go `LogoutResponse`. -/
structure LogoutResponse where
  success : Bool
  message : String
deriving DecidableEq

/-- login_logout.go `SessionInfo`. -/
structure SessionInfo where
  sessionID : String
  uid : String
  email : String
  createdAt : Nat
  expiresAt : Nat
  active : Bool
  metadata : Option DocData

/-- Go type assertion `v.(string)`: the asserted value, or `none` when the
field is absent or of another dynamic type. -/
def asStr : Option Value → Option String
  | some (.str s) => some s
  | _ => none

/-- Go type assertion `v.(bool)`. -/
def asBool : Option Value → Option Bool
  | some (.bool b) => some b
  | _ => none

/-- Go type assertion `v.(time.Time)`. -/
def asTime : Option Value → Option Nat
  | some (.time t) => some t
  | _ => none

/-- Go checked type assertion `v.(map[string]interface{})` in its `, ok`
form, which never panics. -/
def asMap : Option Value → Option DocData
  | some (.map m) => some m
  | _ => none

/-- An unchecked Go type assertion: a failed assertion panics. -/
def goAssert {ε α : Type} : Option α → GoResult ε α
  | some a => .ok a
  | none => .panicked

/-- Sequencing of Go steps: errors and panics propagate. -/
def grBind {ε α β : Type} : GoResult ε α → (α → GoResult ε β) → GoResult ε β
  | .ok a, f => f a
  | .err e, _ => .err e
  | .panicked, _ => .panicked

/-- login_logout.go `verifyPassword`: reads the stored bcrypt hash (with a
checked assertion that yields an error, not a panic) and compares.  The
external bcrypt comparison is the parameter `bc`. -/
def verifyPassword (bc : String → String → Bool) (db : DB) (uid password : String) :
    Except Err Bool :=
  match getDocument db "user_credentials" uid with
  | .error e => .error e
  | .ok data =>
    match asStr (getField data "password_hash") with
    | some h => .ok (bc h password)
    | none => .error .passwordHashNotFound

/-- login_logout.go `getUserClaims`: the `claims` field of the user's
`user_claims` document, defaulting to a plain `role: user` map when the
field is absent or not a map. -/
def getUserClaims (db : DB) (uid : String) : Except Err DocData :=
  match getDocument db "user_claims" uid with
  | .error e => .error e
  | .ok data =>
    match asMap (getField data "claims") with
    | some m => .ok m
    | none => .ok [("role", Value.str "user")]

/-- login_logout.go `createSession`: persists a fresh active session record
expiring 24 hours from now and returns its id and expiry. -/
def createSession (now : Nat) (db : DB) (uid email : String) :
    String × Nat × DB :=
  let sessionData : DocData :=
    [("uid", .str uid), ("email", .str email), ("active", .bool true),
     ("expires_at", .time (now + hours24)),
     ("metadata", .map [("ip", .str "unknown"), ("user_agent", .str "unknown")])]
  let r := createDocument now db "user_sessions" sessionData
  (r.1, now + hours24, r.2.1)

/-- login_logout.go `getSession`: reads the session document and extracts
its fields with unchecked type assertions, in source order; `metadata` alone
uses the checked form. -/
def getSession (db : DB) (id : String) : GoResult Err SessionInfo :=
  match getDocument db "user_sessions" id with
  | .error e => .err e
  | .ok data =>
    grBind (goAssert (asStr (getField data "uid"))) fun uid =>
    grBind (goAssert (asStr (getField data "email"))) fun email =>
    grBind (goAssert (asBool (getField data "active"))) fun active =>
    grBind (goAssert (asTime (getField data "created_at"))) fun createdAt =>
    grBind (goAssert (asTime (getField data "expires_at"))) fun expiresAt =>
    .ok ⟨id, uid, email, createdAt, expiresAt, active, asMap (getField data "metadata")⟩

/-- login_logout.go `invalidateSession`: merge `active=false` and an end
timestamp into the session document. -/
def invalidateSession (now : Nat) (db : DB) (id : String) : DB :=
  (updateDocument now db "user_sessions" id
    [("active", .bool false), ("ended_at", .time now)]).1

/-- login_logout.go `updateSessionExpiration`. -/
def updateSessionExpiration (now : Nat) (db : DB) (id : String) (expiresAt : Nat) : DB :=
  (updateDocument now db "user_sessions" id [("expires_at", .time expiresAt)]).1

/-- login_logout.go `updateLastLogin` (the non-critical bookkeeping write). -/
def updateLastLogin (now : Nat) (db : DB) (uid : String) : DB :=
  (updateDocument now db "user_activity" uid
    [("last_login", .time now), ("login_count", .incr 1)]).1

/-- login_logout.go `updateLastLogout`. -/
def updateLastLogout (now : Nat) (db : DB) (uid : String) : DB :=
  (updateDocument now db "user_activity" uid [("last_logout", .time now)]).1

/-- login_logout.go `ValidateSession`: read the session; a session strictly
past its expiry is lazily invalidated and reported expired; an unexpired
inactive session is reported inactive; otherwise the session is returned.
The pair carries the store after the call (the expiry branch writes). -/
def validateSession (now : Nat) (db : DB) (id : String) :
    GoResult Err SessionInfo × DB :=
  match getSession db id with
  | .err e => (.err e, db)
  | .panicked => (.panicked, db)
  | .ok s =>
    if s.expiresAt < now then (.err .sessionExpired, invalidateSession now db id)
    else if !s.active then (.err .sessionInactive, db)
    else (.ok s, db)

/-- login_logout.go `RefreshSession`: validate, then extend the expiry to 24
hours from now and persist it. -/
def refreshSession (now : Nat) (db : DB) (id : String) :
    GoResult Err SessionInfo × DB :=
  match validateSession now db id with
  | (.ok s, db1) =>
    let newExpiresAt := now + hours24
    let db2 := updateSessionExpiration now db1 id newExpiresAt
    (.ok { s with expiresAt := newExpiresAt }, db2)
  | (r, db1) => (r, db1)

/-- The query `invalidateAllUserSessions` issues: all active sessions of one
user. -/
def activeSessionOpts (uid : String) : QueryOptions :=
  ⟨[⟨"uid", "==", .str uid⟩, ⟨"active", "==", .bool true⟩], "", "", 0, 0⟩

/-- login_logout.go `invalidateAllUserSessions`: query the user's active
sessions and flip them all inactive in one batch commit; with no match the
batch is skipped and the call succeeds. -/
def invalidateAllUserSessions (now : Nat) (db : DB) (uid : String) :
    Except String Unit × DB :=
  let sessions := queryDocuments db "user_sessions" (activeSessionOpts uid)
  let batchOps := sessions.map (fun s =>
    BatchOp.mk "update" "user_sessions" s.id
      [("active", .bool false), ("ended_at", .time now)])
  if batchOps.length > 0 then
    let r := batchWrite now db batchOps
    (r.result, r.db)
  else (.ok (), db)

/-- login_logout.go `Logout`: invalidate the named session when one is
given, then invalidate every session of the user, then best-effort update
the last-logout timestamp. -/
def logout (now : Nat) (db : DB) (req : LogoutRequest) :
    Except Err LogoutResponse × DB :=
  let db1 := if req.sessionID == "" then db else invalidateSession now db req.sessionID
  match invalidateAllUserSessions now db1 req.uid with
  | (.error e, db2) => (.error (.wrapped "error invalidating user sessions" (.ofString e)), db2)
  | (.ok _, db2) =>
    let db3 := updateLastLogout now db2 req.uid
    (.ok ⟨true, "Logout exitoso"⟩, db3)

/-- login_logout.go `Login`: resolve the identity, reject disabled accounts
and bad passwords as unsuccessful (non-error) results, then fetch claims
(defaulting on failure), mint a token (the external signer is the total
parameter `mint`), create a session, and best-effort update last-login. -/
def login (bc : String → String → Bool) (mint : String → DocData → String)
    (now : Nat) (env : Env) (req : LoginRequest) :
    Except Err LoginResponse × Env :=
  match getUserByEmail env.users req.email with
  | .error _ =>
    (.ok ⟨false, "Usuario no encontrado o credenciales inválidas", none, "", "", 0, none⟩, env)
  | .ok user =>
    if user.disabled then
      (.ok ⟨false, "Cuenta desactivada. Contacta al administrador", none, "", "", 0, none⟩, env)
    else
      match verifyPassword bc env.db user.uid req.password with
      | .error e => (.error (.wrapped "error verifying password" e), env)
      | .ok valid =>
        if !valid then
          (.ok ⟨false, "Credenciales inválidas", none, "", "", 0, none⟩, env)
        else
          let claims :=
            match getUserClaims env.db user.uid with
            | .error _ => [("role", Value.str "user")]
            | .ok cs => cs
          let token := mint user.uid claims
          let r := createSession now env.db user.uid user.email
          let db2 := updateLastLogin now r.2.2 user.uid
          (.ok ⟨true, "Login exitoso", some user, token, r.1, r.2.1, some claims⟩,
           { env with db := db2 })

end Auth

namespace Otp

/-- Modelled from the spec: the `OtpRecord` of §3 — the OTP Engine's
implementation (`RequestOTP`/`ValidateAndConsume`, called from `main.go` as
`LoginWithOTP`) is not among the source files, so the record is taken from
the spec's data model: user id, email, 6-digit code kept as a string,
creation and expiry instants, and the monotonic `used` flag; `docID` is the
store-assigned document id. -/
structure OtpRecord where
  docID : String
  uid : String
  email : String
  code : String
  createdAt : Nat
  expiresAt : Nat
  used : Bool
deriving DecidableEq

/-- Modelled from the spec: outcome of `ValidateAndConsume` per §4.1 — the
user id on success, `OtpInvalid` when no live record matches, `OtpExpired`
when the matched record's window has passed. -/
inductive OtpResult where
  | ok (uid : String)
  | otpInvalid
  | otpExpired
deriving DecidableEq

/-- Modelled from the spec: a record is live for `(email, code)` when it
matches both and is still unused (§4.1's selection predicate). -/
def otpLive (email code : String) (r : OtpRecord) : Bool :=
  r.email == email && r.code == code && !r.used

/-- Modelled from the spec: the records `ValidateAndConsume` may select. -/
def liveMatches (store : List OtpRecord) (email code : String) : List OtpRecord :=
  store.filter (otpLive email code)

/-- Modelled from the spec: "always selecting the most recent unused
record" — the live match with the greatest creation time. -/
def pickMostRecent (l : List OtpRecord) : Option OtpRecord :=
  l.foldl (fun acc r =>
    match acc with
    | none => some r
    | some q => if r.createdAt > q.createdAt then some r else some q) none

/-- Modelled from the spec: consuming a record marks exactly the stored
record with that document id `used=true` (monotonic, never reset). -/
def markUsed (store : List OtpRecord) (id : String) : List OtpRecord :=
  store.map (fun r => if r.docID == id then { r with used := true } else r)

/-- Modelled from the spec: §4.1 `ValidateAndConsume(email, code)` — select
the most recent record matching `(email, code, used=false)`; none found is
`OtpInvalid`; a selected record past its window (`now >= expires_at`) is
`OtpExpired` and stays unused; otherwise the record is consumed and the
user id returned.  The pair carries the store after the call. -/
def validateAndConsume (now : Nat) (store : List OtpRecord) (email code : String) :
    OtpResult × List OtpRecord :=
  match pickMostRecent (liveMatches store email code) with
  | none => (.otpInvalid, store)
  | some r =>
    if r.expiresAt ≤ now then (.otpExpired, store)
    else (.ok r.uid, markUsed store r.docID)

end Otp

namespace Auth

open Firestore

/-- The merge patch `invalidateSession` and the per-session batch updates of
`invalidateAllUserSessions` actually send: the caller's
`active=false`/`ended_at` map after `updated_at` has been stamped into it. -/
def deactPatch (now : Nat) : DocData :=
  setField [("active", .bool false), ("ended_at", .time now)] "updated_at" (.time now)

/-- The store after a sequence of `RefreshSession` calls at the given
instants. -/
def refreshAll (id : String) (db : DB) (ts : List Nat) : DB :=
  ts.foldl (fun d t => (refreshSession t d id).2) db

/-- Every call of a `RefreshSession` sequence at the given instants
succeeds. -/
def allRefreshOk (id : String) : DB → List Nat → Prop
  | _, [] => True
  | db, t :: ts =>
    (∃ s, (refreshSession t db id).1 = .ok s) ∧
    allRefreshOk id (refreshSession t db id).2 ts

/-- A well-formed stored session payload used by the concrete instances. -/
def sessionDoc (active : Bool) (exp : Nat) : DocData :=
  [("uid", .str "u1"), ("email", .str "u1@x.com"), ("active", .bool active),
   ("created_at", .time 0), ("expires_at", .time exp)]

/-- Store holding one active session that expires at instant 100. -/
def c2db : DB := ⟨[⟨"user_sessions", "s1", sessionDoc true 100⟩], 0⟩

/-- The session record stored in `c2db`. -/
def c2info : SessionInfo := ⟨"s1", "u1", "u1@x.com", 0, 100, true, none⟩

/-- Store holding one active session created at instant 0. -/
def c3db : DB := ⟨[⟨"user_sessions", "s3", sessionDoc true hours24⟩], 0⟩

/-- The session record stored in `c3db`. -/
def c3info : SessionInfo := ⟨"s3", "u1", "u1@x.com", 0, hours24, true, none⟩

/-- A batch whose third operation has the unsupported kind `archive`. -/
def c4ops : List BatchOp :=
  [⟨"create", "analytics", "", [("event", .str "user_created")]⟩,
   ⟨"update", "profiles", "p1", [("setup_completed", .bool true)]⟩,
   ⟨"archive", "posts", "p2", []⟩]

/-- An empty store. -/
def c4db : DB := ⟨[], 0⟩

/-- An enabled user with stored credentials. -/
def c5userOk : UserRecord := ⟨"u1", "ana@x.com", "Ana", false⟩

/-- A disabled user. -/
def c5userDis : UserRecord := ⟨"u2", "dan@x.com", "Dan", true⟩

/-- Environment for the login instances: two users, one credentials doc. -/
def c5env : Env :=
  ⟨[c5userOk, c5userDis],
   ⟨[⟨"user_credentials", "u1", [("password_hash", .str "pw-correct")]⟩], 0⟩⟩

/-- Stand-in for the external bcrypt comparison: the stored hash matches
exactly one password. -/
def bcEq : String → String → Bool := fun h p => h == p

/-- Stand-in for the external token signer. -/
def mint0 : String → DocData → String := fun uid _ => "token-" ++ uid

/-- Store with a session for user `u1` and `admin` claims for `u1`. -/
def c6dbA : DB :=
  ⟨[⟨"user_sessions", "s1", sessionDoc true 100⟩,
    ⟨"user_claims", "u1", [("claims", .map [("role", .str "admin")])]⟩], 0⟩

/-- Same store except `u1`'s claims resolve to `user`. -/
def c6dbB : DB :=
  ⟨[⟨"user_sessions", "s1", sessionDoc true 100⟩,
    ⟨"user_claims", "u1", [("claims", .map [("role", .str "user")])]⟩], 0⟩

/-- The session record stored in `c6dbA` and `c6dbB`. -/
def c6info : SessionInfo := ⟨"s1", "u1", "u1@x.com", 0, 100, true, none⟩

/-- Store whose only session of user `u1` is already inactive. -/
def c7db : DB := ⟨[⟨"user_sessions", "s9", sessionDoc false 100⟩], 0⟩

/-- Store with two active sessions of the same user. -/
def c8db : DB :=
  ⟨[⟨"user_sessions", "s1", sessionDoc true 500⟩,
    ⟨"user_sessions", "s2", sessionDoc true 900⟩], 0⟩

/-- Logout request naming only session `s1` of user `u1`. -/
def c8req : LogoutRequest := ⟨"u1", "s1"⟩

/-- A session document whose `email` field is missing. -/
def c9db : DB :=
  ⟨[⟨"user_sessions", "sx",
     [("uid", .str "u1"), ("active", .bool true),
      ("created_at", .time 0), ("expires_at", .time 100)]⟩], 0⟩

/-- A two-operation batch used by the caller-mutation instance. -/
def c10ops : List BatchOp :=
  [⟨"create", "analytics", "", [("event", .str "x")]⟩,
   ⟨"update", "profiles", "p1", [("views", .int 2)]⟩]

end Auth

namespace Otp

/-- A store holding exactly one live OTP record. -/
def otpStore1 : List OtpRecord :=
  [⟨"otp-1", "u1", "user@x.com", "042817", 0, 600, false⟩]

/-- The record stored in `otpStore1`. -/
def otpRec1 : OtpRecord := ⟨"otp-1", "u1", "user@x.com", "042817", 0, 600, false⟩

end Otp

open Firestore Auth Otp

theorem getField_cons_self (k : String) (v : Value) (rest : DocData) :
    getField ((k, v) :: rest) k = some v := by
  simp [getField, List.find?]

theorem getField_cons_ne (k0 k : String) (v0 : Value) (rest : DocData)
    (h : k0 ≠ k) : getField ((k0, v0) :: rest) k = getField rest k := by
  have hb : (k0 == k) = false := beq_eq_false_iff_ne.mpr h
  simp [getField, List.find?, hb]

theorem getField_setField_self (d : DocData) (k : String) (v : Value) :
    getField (setField d k v) k = some v := by
  induction d with
  | nil => simp [setField, getField, List.find?]
  | cons p rest ih =>
    rcases p with ⟨k0, v0⟩
    by_cases h : k0 = k
    · subst h
      simp [setField, getField, List.find?]
    · have hb : (k0 == k) = false := beq_eq_false_iff_ne.mpr h
      simp only [setField, hb, Bool.false_eq_true, if_false]
      rw [getField_cons_ne k0 k v0 _ h]
      exact ih

theorem getField_setField_ne (d : DocData) (k k' : String) (v : Value)
    (h : k' ≠ k) : getField (setField d k v) k' = getField d k' := by
  induction d with
  | nil =>
    simp [setField, getField, List.find?, beq_eq_false_iff_ne.mpr (fun hh => h hh.symm)]
  | cons p rest ih =>
    rcases p with ⟨k0, v0⟩
    by_cases h0 : k0 = k
    · have hb : (k0 == k) = true := beq_iff_eq.mpr h0
      simp only [setField, hb, if_true]
      rw [getField_cons_ne k k' v _ (fun hh => h hh.symm),
          getField_cons_ne k0 k' v0 _ (fun hh => h (hh.symm.trans h0))]
    · have hb : (k0 == k) = false := beq_eq_false_iff_ne.mpr h0
      simp only [setField, hb, Bool.false_eq_true, if_false]
      by_cases h1 : k0 = k'
      · subst h1
        rw [getField_cons_self, getField_cons_self]
      · rw [getField_cons_ne k0 k' v0 _ (fun hh => h1 hh), getField_cons_ne k0 k' v0 _ (fun hh => h1 hh)]
        exact ih

theorem getField_mergeFields (p : DocData) : ∀ (d : DocData) (k : String),
    getField (mergeFields d p) k =
      match patchGet p k with
      | some v => some v
      | none => getField d k := by
  induction p with
  | nil => intro d k; simp [mergeFields, patchGet]
  | cons q p' ih =>
    intro d k
    rcases q with ⟨k0, v0⟩
    have step : mergeFields d ((k0, v0) :: p') = mergeFields (setField d k0 v0) p' := rfl
    rw [step, ih]
    cases hp : patchGet p' k with
    | some v =>
      have h2 : patchGet ((k0, v0) :: p') k = some v := by
        simp only [patchGet, hp]
      rw [h2]
    | none =>
      by_cases hk : k0 = k
      · have hb : (k0 == k) = true := beq_iff_eq.mpr hk
        have h2 : patchGet ((k0, v0) :: p') k = some v0 := by
          simp only [patchGet, hp, hb, if_true]
        rw [h2]
        simp only []
        rw [hk]
        exact getField_setField_self d k v0
      · have hb : (k0 == k) = false := beq_eq_false_iff_ne.mpr hk
        have h2 : patchGet ((k0, v0) :: p') k = none := by
          simp only [patchGet, hp, hb, Bool.false_eq_true, if_false]
        rw [h2]
        simp only []
        exact getField_setField_ne d k0 k v0 (fun hh => hk hh.symm)

theorem hasKey_setField_self (d : DocData) (k : String) (v : Value) :
    hasKey (setField d k v) k = true := by
  simp [hasKey, getField_setField_self]

theorem valueBeq_str_iff (v : Value) (s : String) :
    valueBeq v (.str s) = true ↔ v = .str s := by
  cases v <;> simp only [valueBeq] <;> simp

theorem valueBeq_bool_iff (v : Value) (b : Bool) :
    valueBeq v (.bool b) = true ↔ v = .bool b := by
  cases v <;> simp only [valueBeq] <;> simp

theorem find?_and_filter {α : Type} (p q : α → Bool) (l : List α) :
    l.find? (fun a => p a && q a) = (l.filter p).find? q := by
  induction l with
  | nil => simp
  | cons a l ih =>
    by_cases hp : p a = true
    · by_cases hq : q a = true
      · rw [List.find?_cons_of_pos _ (by simp [hp, hq]), List.filter_cons_of_pos hp,
            List.find?_cons_of_pos _ hq]
      · simp only [Bool.not_eq_true] at hq
        rw [List.find?_cons_of_neg _ (by simp [hq]), List.filter_cons_of_pos hp,
            List.find?_cons_of_neg _ (by simp [hq]), ih]
    · simp only [Bool.not_eq_true] at hp
      rw [List.find?_cons_of_neg _ (by simp [hp]), List.filter_cons_of_neg (by simp [hp]), ih]

theorem findDoc_cons (x : FsDoc) (docs : List FsDoc) (col id : String) :
    findDoc (x :: docs) col id =
      if (x.collection == col && x.docID == id) = true then some x
      else findDoc docs col id := by
  unfold findDoc
  rw [List.find?_cons]
  cases hc : (x.collection == col && x.docID == id) with
  | true => simp [hc]
  | false => simp [hc]

theorem find?_update_map (col id : String) (f : DocData → DocData) :
    ∀ (docs : List FsDoc) (d : FsDoc), findDoc docs col id = some d →
      findDoc (docs.map (fun x =>
          if x.collection == col && x.docID == id then { x with data := f x.data } else x))
          col id = some { d with data := f d.data } := by
  intro docs
  induction docs with
  | nil => intro d h; simp [findDoc] at h
  | cons x docs ih =>
    intro d h
    rw [findDoc_cons] at h
    by_cases hc : (x.collection == col && x.docID == id) = true
    · rw [if_pos hc] at h
      injection h with h
      subst h
      simp only [List.map_cons, hc, if_true]
      rw [findDoc_cons]
      simp [hc]
    · rw [if_neg hc] at h
      simp only [List.map_cons, hc, Bool.false_eq_true, if_false]
      rw [findDoc_cons]
      simp only [hc, Bool.false_eq_true, if_false]
      exact ih d h

theorem findDoc_mergeDocs_self (docs : List FsDoc) (col id : String) (p : DocData) (d : FsDoc)
    (h : findDoc docs col id = some d) :
    findDoc (mergeDocs docs col id p) col id =
      some { d with data := mergeFields d.data p } := by
  have h' : List.find? (fun x => x.collection == col && x.docID == id) docs = some d := h
  have hmem : d ∈ docs := List.mem_of_find?_eq_some h'
  have hpred : (d.collection == col && d.docID == id) = true := by
    simpa using List.find?_some h'
  have hany : docs.any (fun x => x.collection == col && x.docID == id) = true :=
    List.any_eq_true.mpr ⟨d, hmem, hpred⟩
  rw [mergeDocs, if_pos hany]
  exact find?_update_map col id (fun dd => mergeFields dd p) docs d h

theorem getSession_ok_inv (db : DB) (id : String) (s : SessionInfo)
    (h : getSession db id = .ok s) :
    ∃ data, getDocument db "user_sessions" id = .ok data ∧
      asStr (getField data "uid") = some s.uid ∧
      asStr (getField data "email") = some s.email ∧
      asBool (getField data "active") = some s.active ∧
      asTime (getField data "created_at") = some s.createdAt ∧
      asTime (getField data "expires_at") = some s.expiresAt ∧
      asMap (getField data "metadata") = s.metadata ∧ s.sessionID = id := by
  unfold getSession at h
  cases hd : getDocument db "user_sessions" id with
  | error e => rw [hd] at h; simp at h
  | ok data =>
    rw [hd] at h
    simp only [] at h
    refine ⟨data, rfl, ?_⟩
    cases h1 : asStr (getField data "uid") with
    | none => rw [h1] at h; simp [goAssert, grBind] at h
    | some uid =>
    rw [h1] at h
    simp only [goAssert, grBind] at h
    cases h2 : asStr (getField data "email") with
    | none => rw [h2] at h; simp [goAssert, grBind] at h
    | some email =>
    rw [h2] at h
    simp only [goAssert, grBind] at h
    cases h3 : asBool (getField data "active") with
    | none => rw [h3] at h; simp [goAssert, grBind] at h
    | some active =>
    rw [h3] at h
    simp only [goAssert, grBind] at h
    cases h4 : asTime (getField data "created_at") with
    | none => rw [h4] at h; simp [goAssert, grBind] at h
    | some createdAt =>
    rw [h4] at h
    simp only [goAssert, grBind] at h
    cases h5 : asTime (getField data "expires_at") with
    | none => rw [h5] at h; simp [goAssert, grBind] at h
    | some expiresAt =>
    rw [h5] at h
    simp only [goAssert, grBind] at h
    injection h with h
    subst h
    exact ⟨rfl, rfl, rfl, rfl, rfl, rfl, rfl⟩

theorem patchGet_deactPatch (now : Nat) :
    patchGet (deactPatch now) "uid" = none ∧
    patchGet (deactPatch now) "email" = none ∧
    patchGet (deactPatch now) "active" = some (.bool false) ∧
    patchGet (deactPatch now) "created_at" = none ∧
    patchGet (deactPatch now) "expires_at" = none ∧
    patchGet (deactPatch now) "metadata" = none :=
  ⟨rfl, rfl, rfl, rfl, rfl, rfl⟩

theorem expiryPatch_eq (now e : Nat) :
    setField [("expires_at", Value.time e)] "updated_at" (.time now) =
      [("expires_at", Value.time e), ("updated_at", Value.time now)] := rfl

theorem patchGet_expiryPatch (now e : Nat) :
    patchGet [("expires_at", Value.time e), ("updated_at", Value.time now)] "uid" = none ∧
    patchGet [("expires_at", Value.time e), ("updated_at", Value.time now)] "email" = none ∧
    patchGet [("expires_at", Value.time e), ("updated_at", Value.time now)] "active" = none ∧
    patchGet [("expires_at", Value.time e), ("updated_at", Value.time now)] "created_at" = none ∧
    patchGet [("expires_at", Value.time e), ("updated_at", Value.time now)] "expires_at" =
      some (.time e) ∧
    patchGet [("expires_at", Value.time e), ("updated_at", Value.time now)] "metadata" = none :=
  ⟨rfl, rfl, rfl, rfl, rfl, rfl⟩

theorem getDocument_ok_inv (db : DB) (col id : String) (data : DocData)
    (h : getDocument db col id = .ok data) :
    ∃ d : FsDoc, findDoc db.docs col id = some d ∧ d.data = data := by
  unfold getDocument at h
  cases hf : findDoc db.docs col id with
  | none => rw [hf] at h; simp at h
  | some d =>
    rw [hf] at h
    injection h with h
    exact ⟨d, rfl, h⟩

theorem getSession_merged (db : DB) (id : String) (s : SessionInfo) (p : DocData) (na : Nat)
    (h : getSession db id = .ok s)
    (hu : patchGet p "uid" = none) (hem : patchGet p "email" = none)
    (hca : patchGet p "created_at" = none) (hmd : patchGet p "metadata" = none)
    (act : Bool) (exp : Nat)
    (hact : (match patchGet p "active" with
             | some v => asBool (some v)
             | none => some s.active) = some act)
    (hexp : (match patchGet p "expires_at" with
             | some v => asTime (some v)
             | none => some s.expiresAt) = some exp) :
    getSession ⟨mergeDocs db.docs "user_sessions" id p, na⟩ id =
      .ok { s with active := act, expiresAt := exp } := by
  obtain ⟨data, hdoc, h1, h2, h3, h4, h5, h6, h7⟩ := getSession_ok_inv db id s h
  obtain ⟨d, hfd, hdd⟩ := getDocument_ok_inv db "user_sessions" id data hdoc
  have hmer := findDoc_mergeDocs_self db.docs "user_sessions" id p d hfd
  have hget : ∀ k, getField (mergeFields d.data p) k =
      match patchGet p k with
      | some v => some v
      | none => getField data k := by
    intro k
    rw [getField_mergeFields, hdd]
  unfold getSession getDocument
  simp only []
  rw [hmer]
  simp only []
  rw [hget "uid", hget "email", hget "active", hget "created_at", hget "expires_at",
      hget "metadata", hu, hem, hca, hmd]
  simp only []
  rw [h1, h2, h4]
  cases hpa : patchGet p "active" with
  | none =>
    rw [hpa] at hact
    simp only [] at hact
    injection hact with hact
    cases hpe : patchGet p "expires_at" with
    | none =>
      rw [hpe] at hexp
      simp only [] at hexp
      injection hexp with hexp
      rw [h3, h5]
      simp only [goAssert, grBind, h6]
      rw [h7, hact, hexp]
    | some v =>
      rw [hpe] at hexp
      simp only [] at hexp
      rw [h3, hexp]
      simp only [goAssert, grBind, h6]
      rw [h7, hact]
  | some v =>
    rw [hpa] at hact
    simp only [] at hact
    cases hpe : patchGet p "expires_at" with
    | none =>
      rw [hpe] at hexp
      simp only [] at hexp
      injection hexp with hexp
      rw [hact, h5]
      simp only [goAssert, grBind, h6]
      rw [h7, hexp]
    | some w =>
      rw [hpe] at hexp
      simp only [] at hexp
      rw [hact, hexp]
      simp only [goAssert, grBind, h6]
      rw [h7]

theorem getSession_invalidated (now : Nat) (db : DB) (id : String) (s : SessionInfo)
    (h : getSession db id = .ok s) :
    getSession (invalidateSession now db id) id = .ok { s with active := false } := by
  have e1 : invalidateSession now db id =
      ⟨mergeDocs db.docs "user_sessions" id (deactPatch now), db.nextAuto⟩ := rfl
  rw [e1]
  have hp := patchGet_deactPatch now
  have hres := getSession_merged db id s (deactPatch now) db.nextAuto h
    hp.1 hp.2.1 hp.2.2.2.1 hp.2.2.2.2.2 false s.expiresAt
    (by rw [hp.2.2.1]; rfl) (by rw [hp.2.2.2.2.1])
  exact hres

theorem getSession_expiry_updated (now e : Nat) (db : DB) (id : String) (s : SessionInfo)
    (h : getSession db id = .ok s) :
    getSession (updateSessionExpiration now db id e) id =
      .ok { s with expiresAt := e } := by
  have e1 : updateSessionExpiration now db id e =
      ⟨mergeDocs db.docs "user_sessions" id
        [("expires_at", Value.time e), ("updated_at", Value.time now)], db.nextAuto⟩ := rfl
  rw [e1]
  have hp := patchGet_expiryPatch now e
  have hres := getSession_merged db id s _ db.nextAuto h
    hp.1 hp.2.1 hp.2.2.2.1 hp.2.2.2.2.2 s.active e
    (by rw [hp.2.2.1]) (by rw [hp.2.2.2.2.1]; rfl)
  exact hres

theorem validateSession_ok_inv (now : Nat) (db : DB) (id : String) (s : SessionInfo)
    (h : (validateSession now db id).1 = .ok s) :
    getSession db id = .ok s ∧ s.active = true ∧ now ≤ s.expiresAt := by
  unfold validateSession at h
  cases hg : getSession db id with
  | err e => rw [hg] at h; simp at h
  | panicked => rw [hg] at h; simp at h
  | ok s0 =>
    rw [hg] at h
    simp only [] at h
    by_cases he : s0.expiresAt < now
    · rw [if_pos he] at h; simp at h
    · rw [if_neg he] at h
      cases ha : s0.active with
      | false => rw [ha] at h; simp at h
      | true =>
        rw [ha] at h
        simp only [Bool.not_true, Bool.false_eq_true, if_false] at h
        injection h with h
        subst h
        exact ⟨rfl, ha, Nat.not_lt.mp he⟩

/-- C2 counterexample: the claim says `ValidateSession` fails with
`SessionExpired` exactly when `now >= expires_at`, but at the boundary
instant `now = expires_at = 100` the code (which tests `time.Now().After`,
a strict comparison) accepts the session and returns it. -/
theorem validateSession_boundary_cex :
    c2info.expiresAt = 100 ∧ (validateSession 100 c2db "s1").1 = GoResult.ok c2info :=
  ⟨rfl, rfl⟩

/-- C2 (amended): for a readable stored session, `ValidateSession` fails
with `SessionExpired` exactly when `now > expires_at` (strictly after), in
that case flips the stored record to `active=false` as a side effect, and
succeeds exactly when `active = true` and `now <= expires_at`. -/
theorem validateSession_strict_expiry (now : Nat) (db : DB) (id : String) (s : SessionInfo)
    (h : getSession db id = .ok s) :
    ((validateSession now db id).1 = .err .sessionExpired ↔ s.expiresAt < now) ∧
    (s.expiresAt < now →
      getSession (validateSession now db id).2 id = .ok { s with active := false }) ∧
    ((validateSession now db id).1 = .ok s ↔ (s.active = true ∧ now ≤ s.expiresAt)) := by
  unfold validateSession
  rw [h]
  simp only []
  by_cases he : s.expiresAt < now
  · rw [if_pos he]
    refine ⟨⟨fun _ => he, fun _ => rfl⟩, fun _ => ?_, ?_⟩
    · exact getSession_invalidated now db id s h
    · constructor
      · intro hco; simp at hco
      · rintro ⟨ha, hle⟩; exact absurd he (Nat.not_lt.mpr hle)
  · rw [if_neg he]
    cases ha : s.active with
    | false =>
      simp only [Bool.not_false, if_true]
      refine ⟨⟨fun hco => ?_, fun hlt => absurd hlt he⟩, fun hlt => absurd hlt he, ?_⟩
      · simp at hco
      · constructor
        · intro hco; simp at hco
        · rintro ⟨hat, _⟩; simp at hat
    | true =>
      simp only [Bool.not_true, Bool.false_eq_true, if_false]
      refine ⟨⟨fun hco => ?_, fun hlt => absurd hlt he⟩, fun hlt => absurd hlt he, ?_⟩
      · simp at hco
      · simp [Nat.not_lt.mp he]

/-- C2 witness: a concrete strictly-expired session is rejected with
`SessionExpired`. -/
theorem validateSession_strict_expiry_witness :
    (validateSession 200 c2db "s1").1 = GoResult.err Err.sessionExpired :=
  ((validateSession_strict_expiry 200 c2db "s1" c2info rfl).1).mpr (by decide)

/-- C9: a stored session document in which any of the `uid`, `email`,
`active`, `created_at` or `expires_at` fields is missing or has an
unexpected dynamic type makes `getSession` panic through its unchecked type
assertions (rather than return an error value), and `ValidateSession` and
`RefreshSession` die with it. -/
theorem getSession_panics_on_malformed_doc (now : Nat) (db : DB) (id : String) (data : DocData)
    (hdoc : getDocument db "user_sessions" id = .ok data)
    (hbad : asStr (getField data "uid") = none ∨ asStr (getField data "email") = none ∨
      asBool (getField data "active") = none ∨ asTime (getField data "created_at") = none ∨
      asTime (getField data "expires_at") = none) :
    getSession db id = .panicked ∧ (validateSession now db id).1 = .panicked ∧
      (refreshSession now db id).1 = .panicked := by
  have hgs : getSession db id = .panicked := by
    unfold getSession
    rw [hdoc]
    simp only []
    rcases hbad with h1 | h2 | h3 | h4 | h5
    · rw [h1]; simp [goAssert, grBind]
    · cases hu : asStr (getField data "uid") <;> simp [goAssert, grBind, h2]
    · cases hu : asStr (getField data "uid") <;> cases he : asStr (getField data "email") <;>
        simp [goAssert, grBind, h3]
    · cases hu : asStr (getField data "uid") <;> cases he : asStr (getField data "email") <;>
        cases hb : asBool (getField data "active") <;> simp [goAssert, grBind, h4]
    · cases hu : asStr (getField data "uid") <;> cases he : asStr (getField data "email") <;>
        cases hb : asBool (getField data "active") <;>
        cases hcr : asTime (getField data "created_at") <;> simp [goAssert, grBind, h5]
  have hv : validateSession now db id = (.panicked, db) := by
    unfold validateSession; rw [hgs]
  refine ⟨hgs, ?_, ?_⟩
  · rw [hv]
  · unfold refreshSession; rw [hv]

/-- C9 witness: a session document missing its `email` field panics all
three readers. -/
theorem getSession_panics_on_malformed_doc_witness :
    getSession c9db "sx" = GoResult.panicked ∧
    (validateSession 5 c9db "sx").1 = GoResult.panicked ∧
    (refreshSession 5 c9db "sx").1 = GoResult.panicked :=
  getSession_panics_on_malformed_doc 5 c9db "sx"
    [("uid", .str "u1"), ("active", .bool true), ("created_at", .time 0),
     ("expires_at", .time 100)]
    rfl (Or.inr (Or.inl rfl))

theorem refreshSession_ok (t : Nat) (db : DB) (id : String) (s : SessionInfo)
    (hs : getSession db id = .ok s) (ha : s.active = true) (hle : t ≤ s.expiresAt) :
    refreshSession t db id =
      (.ok { s with expiresAt := t + hours24 },
       updateSessionExpiration t db id (t + hours24)) := by
  unfold refreshSession validateSession
  rw [hs]
  simp only []
  rw [if_neg (Nat.not_lt.mpr hle), ha]
  simp only [Bool.not_true, Bool.false_eq_true, if_false]
  rw [ha]

theorem refreshSession_expired (t : Nat) (db : DB) (id : String) (s : SessionInfo)
    (hs : getSession db id = .ok s) (hlt : s.expiresAt < t) :
    (refreshSession t db id).1 = .err .sessionExpired := by
  unfold refreshSession validateSession
  rw [hs]
  simp only []
  rw [if_pos hlt]

/-- C3: for a session whose expiry was last set to `tc + 24h` by the system
(creation or an earlier refresh), any sequence of successful
`RefreshSession` calls at nondecreasing instants keeps the session active,
leaves its stored expiry at `lastCall + 24h`, and never decreases it: the
final expiry is at least the expiry before any call, each refresh having
extended it to `now + 24h`. -/
theorem refreshSession_monotone (db : DB) (id : String) (s : SessionInfo) (tc : Nat)
    (ts : List Nat) (hs : getSession db id = .ok s) (ha : s.active = true)
    (hexp : s.expiresAt = tc + hours24)
    (hchain : List.Chain (· ≤ ·) tc ts) (hok : allRefreshOk id db ts) :
    ∃ s2, getSession (refreshAll id db ts) id = .ok s2 ∧ s2.active = true ∧
      s2.expiresAt = ts.getLastD tc + hours24 ∧ s.expiresAt ≤ s2.expiresAt := by
  induction ts generalizing db s tc with
  | nil => exact ⟨s, hs, ha, hexp, Nat.le_refl _⟩
  | cons t ts' ih =>
    obtain ⟨⟨sr, hsr⟩, hok'⟩ := hok
    rcases hchain with _ | ⟨hct, hchain'⟩
    have hle : t ≤ s.expiresAt := by
      by_contra hnle
      have hlt : s.expiresAt < t := Nat.not_le.mp hnle
      have hbad := refreshSession_expired t db id s hs hlt
      rw [hbad] at hsr
      simp at hsr
    have hr := refreshSession_ok t db id s hs ha hle
    have hdb2 : (refreshSession t db id).2 = updateSessionExpiration t db id (t + hours24) := by
      rw [hr]
    have hs2 : getSession (updateSessionExpiration t db id (t + hours24)) id =
        .ok { s with expiresAt := t + hours24 } :=
      getSession_expiry_updated t (t + hours24) db id s hs
    have hok2 : allRefreshOk id (updateSessionExpiration t db id (t + hours24)) ts' := by
      rw [← hdb2]; exact hok'
    obtain ⟨s2, hg2, ha2, he2, hle2⟩ :=
      ih (updateSessionExpiration t db id (t + hours24))
        { s with expiresAt := t + hours24 } t hs2 ha rfl hchain' hok2
    refine ⟨s2, ?_, ha2, ?_, ?_⟩
    · have hfold : refreshAll id db (t :: ts') =
          refreshAll id (updateSessionExpiration t db id (t + hours24)) ts' := by
        unfold refreshAll
        simp only [List.foldl_cons]
        rw [hdb2]
      rw [hfold]
      exact hg2
    · rw [List.getLastD_cons]
      exact he2
    · calc s.expiresAt = tc + hours24 := hexp
        _ ≤ t + hours24 := Nat.add_le_add_right hct _
        _ ≤ s2.expiresAt := hle2

/-- C3 witness: one refresh of a fresh session at `t = 24h` succeeds and
extends the expiry from `24h` to `48h`. -/
theorem refreshSession_monotone_witness :
    ∃ s2, getSession (refreshAll "s3" c3db [hours24]) "s3" = .ok s2 ∧ s2.active = true ∧
      s2.expiresAt = [hours24].getLastD 0 + hours24 ∧ c3info.expiresAt ≤ s2.expiresAt :=
  refreshSession_monotone c3db "s3" c3info 0 [hours24] rfl rfl (by decide)
    (List.Chain.cons (by decide) List.Chain.nil) ⟨⟨_, rfl⟩, trivial⟩

theorem findDoc_eq_of_collection_filter_eq (docs docs2 : List FsDoc) (col id : String)
    (h : docs.filter (fun d => d.collection == col) =
         docs2.filter (fun d => d.collection == col)) :
    findDoc docs col id = findDoc docs2 col id := by
  unfold findDoc
  rw [find?_and_filter (fun d : FsDoc => d.collection == col) (fun d => d.docID == id) docs,
      find?_and_filter (fun d : FsDoc => d.collection == col) (fun d => d.docID == id) docs2, h]

theorem getSession_eq_of_sessions_eq (db db2 : DB) (id : String)
    (h : db.docs.filter (fun d => d.collection == "user_sessions") =
         db2.docs.filter (fun d => d.collection == "user_sessions")) :
    getSession db id = getSession db2 id := by
  unfold getSession getDocument
  rw [findDoc_eq_of_collection_filter_eq db.docs db2.docs "user_sessions" id h]

/-- C6 counterexample: two stores whose `user_claims` documents resolve
different roles for the session's user produce identical `ValidateSession`
results: the returned `SessionInfo` carries no claims at all, so claims are
neither re-fetched nor returned at validation time. -/
theorem validateSession_claims_ignored_cex :
    getUserClaims c6dbA "u1" = Except.ok [("role", Value.str "admin")] ∧
    getUserClaims c6dbB "u1" = Except.ok [("role", Value.str "user")] ∧
    "admin" ≠ "user" ∧
    (validateSession 50 c6dbA "s1").1 = GoResult.ok c6info ∧
    (validateSession 50 c6dbB "s1").1 = GoResult.ok c6info :=
  ⟨rfl, rfl, by decide, rfl, rfl⟩

/-- C6 (amended): a successful `ValidateSession` returns the user id and
email exactly as stored on the session document, and its result is
independent of every document outside the `user_sessions` collection (in
particular of the `user_claims` documents): no authorization claims are
fetched or returned. -/
theorem validateSession_returns_stored_identity (now : Nat) (db : DB) (id : String)
    (s : SessionInfo) (h : (validateSession now db id).1 = .ok s) :
    s.sessionID = id ∧
    (∃ data, getDocument db "user_sessions" id = .ok data ∧
      asStr (getField data "uid") = some s.uid ∧
      asStr (getField data "email") = some s.email) ∧
    (∀ db2 : DB, db.docs.filter (fun d => d.collection == "user_sessions") =
        db2.docs.filter (fun d => d.collection == "user_sessions") →
      (validateSession now db2 id).1 = .ok s) := by
  obtain ⟨hg, ha, hle⟩ := validateSession_ok_inv now db id s h
  obtain ⟨data, hdoc, h1, h2, h3, h4, h5, h6, h7⟩ := getSession_ok_inv db id s hg
  refine ⟨h7, ⟨data, hdoc, h1, h2⟩, ?_⟩
  intro db2 heq
  have hg2 : getSession db2 id = .ok s := by
    rw [← getSession_eq_of_sessions_eq db db2 id heq]
    exact hg
  unfold validateSession
  rw [hg2]
  simp only []
  rw [if_neg (Nat.not_lt.mpr hle), ha]
  simp only [Bool.not_true, Bool.false_eq_true, if_false]

/-- C6 witness: the concrete session of `c6dbA` validates identically in
`c6dbB`, whose claims differ. -/
theorem validateSession_returns_stored_identity_witness :
    (validateSession 50 c6dbB "s1").1 = GoResult.ok c6info :=
  (validateSession_returns_stored_identity 50 c6dbA "s1" c6info rfl).2.2 c6dbB rfl

theorem stageBatch_err (now : Nat) :
    ∀ (ops : List BatchOp) (n : Nat), (∃ op ∈ ops, supportedOpType op.type = false) →
      ∃ e ops2, stageBatch now n ops = (.error e, ops2) := by
  intro ops
  induction ops with
  | nil => intro n h; simp at h
  | cons op rest ih =>
    intro n h
    by_cases hc : op.type = "create"
    · have hrest : ∃ o ∈ rest, supportedOpType o.type = false := by
        rcases h with ⟨o, ho, hbad⟩
        rcases List.mem_cons.mp ho with rfl | hor
        · rw [supportedOpType, hc] at hbad; simp at hbad
        · exact ⟨o, hor, hbad⟩
      obtain ⟨e, ops2, hst⟩ := ih (if op.documentID == "" then n + 1 else n) hrest
      have hbc : (op.type == "create") = true := beq_iff_eq.mpr hc
      have goal1 : stageBatch now n (op :: rest) = (.error e, { op with data := setField (setField op.data "created_at" (Value.time now)) "updated_at" (Value.time now) } :: ops2) := by
        simp only [stageBatch, hbc, if_true]
        rw [hst]
      exact ⟨e, _, goal1⟩
    · by_cases hu : op.type = "update"
      · have hrest : ∃ o ∈ rest, supportedOpType o.type = false := by
          rcases h with ⟨o, ho, hbad⟩
          rcases List.mem_cons.mp ho with rfl | hor
          · rw [supportedOpType, hu] at hbad; simp at hbad
          · exact ⟨o, hor, hbad⟩
        obtain ⟨e, ops2, hst⟩ := ih n hrest
        have hbc : (op.type == "create") = false := beq_eq_false_iff_ne.mpr hc
        have hbu : (op.type == "update") = true := beq_iff_eq.mpr hu
        have goal1 : stageBatch now n (op :: rest) = (.error e, { op with data := setField op.data "updated_at" (Value.time now) } :: ops2) := by
          simp only [stageBatch, hbc, hbu, Bool.false_eq_true, if_false, if_true]
          rw [hst]
        exact ⟨e, _, goal1⟩
      · by_cases hd : op.type = "delete"
        · have hrest : ∃ o ∈ rest, supportedOpType o.type = false := by
            rcases h with ⟨o, ho, hbad⟩
            rcases List.mem_cons.mp ho with rfl | hor
            · rw [supportedOpType, hd] at hbad; simp at hbad
            · exact ⟨o, hor, hbad⟩
          obtain ⟨e, ops2, hst⟩ := ih n hrest
          have hbc : (op.type == "create") = false := beq_eq_false_iff_ne.mpr hc
          have hbu : (op.type == "update") = false := beq_eq_false_iff_ne.mpr hu
          have hbd : (op.type == "delete") = true := beq_iff_eq.mpr hd
          have goal1 : stageBatch now n (op :: rest) = (.error e, op :: ops2) := by
            simp only [stageBatch, hbc, hbu, hbd, Bool.false_eq_true, if_false, if_true]
            rw [hst]
          exact ⟨e, _, goal1⟩
        · have hbc : (op.type == "create") = false := beq_eq_false_iff_ne.mpr hc
          have hbu : (op.type == "update") = false := beq_eq_false_iff_ne.mpr hu
          have hbd : (op.type == "delete") = false := beq_eq_false_iff_ne.mpr hd
          refine ⟨"unsupported batch operation type: " ++ op.type, op :: rest, ?_⟩
          simp only [stageBatch, hbc, hbu, hbd, Bool.false_eq_true, if_false]

/-- C4: a batch containing an operation of an unsupported kind fails as a
whole: `BatchWrite` returns a single error and the store is exactly what it
was before the call — none of the operations, including those staged before
the bad one, is applied. -/
theorem batchWrite_unsupported_rejected (now : Nat) (db : DB) (ops : List BatchOp)
    (h : ∃ op ∈ ops, supportedOpType op.type = false) :
    (∃ e, (batchWrite now db ops).result = .error e) ∧ (batchWrite now db ops).db = db := by
  obtain ⟨e, ops2, hst⟩ := stageBatch_err now ops db.nextAuto h
  unfold batchWrite
  rw [hst]
  exact ⟨⟨e, rfl⟩, rfl⟩

/-- C4 witness: a three-operation batch whose third operation has kind
`archive` fails and leaves the empty store untouched. -/
theorem batchWrite_unsupported_rejected_witness :
    (∃ e, (batchWrite 7 c4db c4ops).result = .error e) ∧ (batchWrite 7 c4db c4ops).db = c4db :=
  batchWrite_unsupported_rejected 7 c4db c4ops
    ⟨⟨"archive", "posts", "p2", []⟩,
     List.Mem.tail _ (List.Mem.tail _ (List.Mem.head _)), by decide⟩

/-- C7: `RevokeAllForUser` (`invalidateAllUserSessions`) on a user with no
active stored session succeeds and performs zero writes: the store is
returned unchanged and the batch is never issued. -/
theorem revokeAllForUser_zero_sessions_noop (now : Nat) (db : DB) (uid : String)
    (h : ∀ d ∈ db.docs, d.collection = "user_sessions" →
      getField d.data "uid" = some (.str uid) →
      getField d.data "active" ≠ some (.bool true)) :
    invalidateAllUserSessions now db uid = (.ok (), db) := by
  have hfil : db.docs.filter (fun d => d.collection == "user_sessions" &&
      (activeSessionOpts uid).filters.all (fun f => evalFilter d.data f)) = [] := by
    rw [List.filter_eq_nil_iff]
    intro d hd hp
    simp only [activeSessionOpts, List.all_cons, List.all_nil, Bool.and_true,
      Bool.and_eq_true, beq_iff_eq] at hp
    obtain ⟨hcol, hf1, hf2⟩ := hp
    unfold evalFilter at hf1 hf2
    simp only [] at hf1 hf2
    cases hug : getField d.data "uid" with
    | none => rw [hug] at hf1; simp at hf1
    | some v =>
      rw [hug] at hf1
      simp only [beq_self_eq_true, if_true] at hf1
      have hv : v = .str uid := (valueBeq_str_iff v uid).mp hf1
      cases hag : getField d.data "active" with
      | none => rw [hag] at hf2; simp at hf2
      | some w =>
        rw [hag] at hf2
        simp only [beq_self_eq_true, if_true] at hf2
        have hw : w = .bool true := (valueBeq_bool_iff w true).mp hf2
        exact h d hd hcol (by rw [hug, hv]) (by rw [hag, hw])
  have hsess : queryDocuments db "user_sessions" (activeSessionOpts uid) = [] := by
    unfold queryDocuments
    rw [hfil]
    rfl
  simp only [invalidateAllUserSessions, hsess]
  rfl

/-- C7 witness: revoking all sessions of `u1` in a store whose only session
of `u1` is inactive is a successful no-op. -/
theorem revokeAllForUser_zero_sessions_noop_witness :
    invalidateAllUserSessions 3 c7db "u1" = (.ok (), c7db) :=
  revokeAllForUser_zero_sessions_noop 3 c7db "u1" (by
    intro d hd
    rcases List.mem_cons.mp hd with rfl | hor
    · intro _ _ hcontra
      injection hcontra with hcontra
      exact Value.noConfusion hcontra (fun hb => Bool.noConfusion hb)
    · simp at hor)

theorem hasKey_create_stamp (now : Nat) (d : DocData) :
    hasKey (setField (setField d "created_at" (Value.time now)) "updated_at"
      (Value.time now)) "created_at" = true ∧
    hasKey (setField (setField d "created_at" (Value.time now)) "updated_at"
      (Value.time now)) "updated_at" = true := by
  constructor
  · unfold hasKey
    rw [getField_setField_ne _ "updated_at" "created_at" _ (by decide),
        getField_setField_self]
    rfl
  · exact hasKey_setField_self _ _ _

theorem stageBatch_ok_mutates (now : Nat) :
    ∀ (ops : List BatchOp) (n : Nat) (r : List StagedWrite × Nat) (ops2 : List BatchOp),
      stageBatch now n ops = (.ok r, ops2) →
      ∀ op ∈ ops2,
        (op.type = "create" →
          hasKey op.data "created_at" = true ∧ hasKey op.data "updated_at" = true) ∧
        (op.type = "update" → hasKey op.data "updated_at" = true) := by
  intro ops
  induction ops with
  | nil =>
    intro n r ops2 h op hop
    simp only [stageBatch] at h
    injection h with h1 h2
    rw [← h2] at hop
    simp at hop
  | cons op0 rest ih =>
    intro n r ops2 h opx hopx
    by_cases hc : op0.type = "create"
    · have hbc := beq_iff_eq.mpr hc
      cases hst : stageBatch now (if (op0.documentID == "") = true then n + 1 else n) rest with
      | mk fst rest2 =>
        cases fst with
        | error e =>
          simp only [stageBatch, hbc, if_true, hst] at h
          simp at h
        | ok rr =>
          simp only [stageBatch, hbc, if_true, hst] at h
          have h2 := congrArg Prod.snd h
          simp only [] at h2
          rw [← h2] at hopx
          rcases List.mem_cons.mp hopx with rfl | hor
          · refine ⟨fun _ => ?_, fun hu => ?_⟩
            · exact hasKey_create_stamp now op0.data
            · exact absurd (hc.symm.trans hu) (by decide)
          · exact ih (if (op0.documentID == "") = true then n + 1 else n) rr rest2 hst opx hor
    · by_cases hu : op0.type = "update"
      · have hbc := beq_eq_false_iff_ne.mpr hc
        have hbu := beq_iff_eq.mpr hu
        cases hst : stageBatch now n rest with
        | mk fst rest2 =>
          cases fst with
          | error e =>
            simp only [stageBatch, hbc, hbu, Bool.false_eq_true, if_false, if_true, hst] at h
            simp at h
          | ok rr =>
            simp only [stageBatch, hbc, hbu, Bool.false_eq_true, if_false, if_true, hst] at h
            have h2 := congrArg Prod.snd h
            simp only [] at h2
            rw [← h2] at hopx
            rcases List.mem_cons.mp hopx with rfl | hor
            · refine ⟨fun hcx => ?_, fun _ => ?_⟩
              · exact absurd (hu.symm.trans hcx) (by decide)
              · exact hasKey_setField_self _ _ _
            · exact ih n rr rest2 hst opx hor
      · by_cases hd : op0.type = "delete"
        · have hbc := beq_eq_false_iff_ne.mpr hc
          have hbu := beq_eq_false_iff_ne.mpr hu
          have hbd := beq_iff_eq.mpr hd
          cases hst : stageBatch now n rest with
          | mk fst rest2 =>
            cases fst with
            | error e =>
              simp only [stageBatch, hbc, hbu, hbd, Bool.false_eq_true, if_false, if_true,
                hst] at h
              simp at h
            | ok rr =>
              simp only [stageBatch, hbc, hbu, hbd, Bool.false_eq_true, if_false, if_true,
                hst] at h
              have h2 := congrArg Prod.snd h
              simp only [] at h2
              rw [← h2] at hopx
              rcases List.mem_cons.mp hopx with rfl | hor
              · refine ⟨fun hcx => absurd (hd.symm.trans hcx) (by decide),
                  fun hux => absurd (hd.symm.trans hux) (by decide)⟩
              · exact ih n rr rest2 hst opx hor
        · have hbc := beq_eq_false_iff_ne.mpr hc
          have hbu := beq_eq_false_iff_ne.mpr hu
          have hbd := beq_eq_false_iff_ne.mpr hd
          simp only [stageBatch, hbc, hbu, hbd, Bool.false_eq_true, if_false] at h
          simp at h

/-- C10: every write entry point mutates the caller's own data map before
the write goes out: `CreateDocument` and `CreateDocumentWithID` insert
`created_at` and `updated_at` into the map the caller passed (and store
exactly that map), `UpdateDocument` inserts `updated_at` (and merges exactly
that map), and a successful `BatchWrite` leaves every create operation's map
with both timestamp keys and every update operation's map with
`updated_at`. -/
theorem writes_mutate_caller_data (now : Nat) (db : DB) (col id : String) (data : DocData)
    (ops : List BatchOp) :
    (hasKey (createDocument now db col data).2.2 "created_at" = true ∧
     hasKey (createDocument now db col data).2.2 "updated_at" = true ∧
     (createDocument now db col data).2.1.docs =
       db.docs ++ [⟨col, autoId db.nextAuto, (createDocument now db col data).2.2⟩]) ∧
    (hasKey (createDocumentWithID now db col id data).2 "created_at" = true ∧
     hasKey (createDocumentWithID now db col id data).2 "updated_at" = true ∧
     (createDocumentWithID now db col id data).1.docs =
       putDocs db.docs col id (createDocumentWithID now db col id data).2) ∧
    (hasKey (updateDocument now db col id data).2 "updated_at" = true ∧
     (updateDocument now db col id data).1.docs =
       mergeDocs db.docs col id (updateDocument now db col id data).2) ∧
    ((batchWrite now db ops).result = .ok () →
      ∀ op ∈ (batchWrite now db ops).callerOps,
        (op.type = "create" →
          hasKey op.data "created_at" = true ∧ hasKey op.data "updated_at" = true) ∧
        (op.type = "update" → hasKey op.data "updated_at" = true)) := by
  refine ⟨⟨(hasKey_create_stamp now data).1, (hasKey_create_stamp now data).2, rfl⟩,
    ⟨(hasKey_create_stamp now data).1, (hasKey_create_stamp now data).2, rfl⟩,
    ⟨hasKey_setField_self _ _ _, rfl⟩, ?_⟩
  intro hok opx hopx
  cases hsb : stageBatch now db.nextAuto ops with
  | mk fst ops2 =>
    cases fst with
    | error e =>
      have hres : (batchWrite now db ops).result = .error e := by
        unfold batchWrite; rw [hsb]
      rw [hres] at hok
      simp at hok
    | ok rr =>
      have hco : (batchWrite now db ops).callerOps = ops2 := by
        unfold batchWrite; rw [hsb]
      rw [hco] at hopx
      exact stageBatch_ok_mutates now ops db.nextAuto rr ops2 hsb opx hopx

/-- C10 witness: the concrete caller maps observe the stamped keys after a
create and after an update. -/
theorem writes_mutate_caller_data_witness :
    hasKey (createDocument 5 c4db "analytics" [("event", Value.str "x")]).2.2
      "created_at" = true ∧
    hasKey (updateDocument 5 c4db "profiles" "p1" [("views", Value.int 2)]).2
      "updated_at" = true :=
  ⟨(writes_mutate_caller_data 5 c4db "analytics" "p1" [("event", Value.str "x")] c10ops).1.1,
   (writes_mutate_caller_data 5 c4db "profiles" "p1" [("views", Value.int 2)] c10ops).2.2.1.1⟩

theorem liveMatches_markUsed_nil (email code id : String) :
    ∀ store, liveMatches store email code = [] →
      liveMatches (markUsed store id) email code = [] := by
  intro store
  induction store with
  | nil => intro _; rfl
  | cons s ss ih =>
    intro h
    cases hp : otpLive email code s with
    | true =>
      rw [liveMatches, List.filter_cons_of_pos hp] at h
      simp at h
    | false =>
      rw [liveMatches, List.filter_cons_of_neg (by simp [hp])] at h
      show liveMatches
        ((if s.docID == id then { s with used := true } else s) :: markUsed ss id) email code = []
      rw [liveMatches,
        List.filter_cons_of_neg (by
          by_cases hid : s.docID = id
          · simp [hid, otpLive]
          · have hb : (s.docID == id) = false := beq_eq_false_iff_ne.mpr hid
            simp [hb, hp])]
      exact ih h

theorem liveMatches_consumed (email code : String) (r : OtpRecord) :
    ∀ store, liveMatches store email code = [r] →
      liveMatches (markUsed store r.docID) email code = [] := by
  intro store
  induction store with
  | nil => intro _; rfl
  | cons s ss ih =>
    intro h
    cases hp : otpLive email code s with
    | true =>
      rw [liveMatches, List.filter_cons_of_pos hp] at h
      injection h with h1 h2
      show liveMatches
        ((if s.docID == r.docID then { s with used := true } else s) :: markUsed ss r.docID)
        email code = []
      have hid : (s.docID == r.docID) = true := by rw [h1]; exact beq_self_eq_true _
      rw [if_pos hid, liveMatches, List.filter_cons_of_neg (by simp [otpLive])]
      exact liveMatches_markUsed_nil email code r.docID ss h2
    | false =>
      rw [liveMatches, List.filter_cons_of_neg (by simp [hp])] at h
      show liveMatches
        ((if s.docID == r.docID then { s with used := true } else s) :: markUsed ss r.docID)
        email code = []
      rw [liveMatches,
        List.filter_cons_of_neg (by
          by_cases hid : s.docID = r.docID
          · simp [hid, otpLive]
          · have hb : (s.docID == r.docID) = false := beq_eq_false_iff_ne.mpr hid
            simp [hb, hp])]
      exact ih h

/-- C1: once an OTP has been validated and consumed, a second
`ValidateAndConsume` with the same email and code fails with `OtpInvalid`,
even immediately after first use, provided the consumed record was the sole
live record for that email and code (the at-most-one-live-record regime the
spec's data model prescribes). -/
theorem validateAndConsume_at_most_once (now1 now2 : Nat) (store : List OtpRecord)
    (email code : String) (r : OtpRecord) (u : String)
    (huniq : liveMatches store email code = [r])
    (hok : (validateAndConsume now1 store email code).1 = .ok u) :
    (validateAndConsume now2 (validateAndConsume now1 store email code).2 email code).1 =
      .otpInvalid := by
  have hpick : pickMostRecent (liveMatches store email code) = some r := by
    rw [huniq]; rfl
  by_cases he : r.expiresAt ≤ now1
  · exfalso
    have hbad : (validateAndConsume now1 store email code).1 = .otpExpired := by
      unfold validateAndConsume
      rw [hpick]
      simp only []
      rw [if_pos he]
    rw [hbad] at hok
    simp at hok
  · have hcall : validateAndConsume now1 store email code =
        (.ok r.uid, markUsed store r.docID) := by
      unfold validateAndConsume
      rw [hpick]
      simp only []
      rw [if_neg he]
    rw [hcall]
    have hnil : liveMatches (markUsed store r.docID) email code = [] :=
      liveMatches_consumed email code r store huniq
    unfold validateAndConsume
    rw [hnil]
    rfl

/-- C1 witness: the stored code `042817` validates once at `t=10` and is
rejected as invalid at `t=20`. -/
theorem validateAndConsume_at_most_once_witness :
    (validateAndConsume 20 (validateAndConsume 10 otpStore1 "user@x.com" "042817").2
      "user@x.com" "042817").1 = OtpResult.otpInvalid :=
  validateAndConsume_at_most_once 10 20 otpStore1 "user@x.com" "042817" otpRec1 "u1" rfl rfl

/-- C5 counterexample: the three expected rejections of `Login` carry three
pairwise distinct messages — unknown email, disabled account and wrong
password are all distinguishable from one another by the returned message,
contradicting the claim that the message does not distinguish them. -/
theorem login_messages_distinguish_cex :
    (login bcEq mint0 0 c5env ⟨"nobody@x.com", "z"⟩).1 =
      Except.ok ⟨false, "Usuario no encontrado o credenciales inválidas", none, "", "", 0, none⟩ ∧
    (login bcEq mint0 0 c5env ⟨"dan@x.com", "z"⟩).1 =
      Except.ok ⟨false, "Cuenta desactivada. Contacta al administrador", none, "", "", 0, none⟩ ∧
    (login bcEq mint0 0 c5env ⟨"ana@x.com", "wrong"⟩).1 =
      Except.ok ⟨false, "Credenciales inválidas", none, "", "", 0, none⟩ ∧
    ("Usuario no encontrado o credenciales inválidas" ≠ "Credenciales inválidas") ∧
    ("Cuenta desactivada. Contacta al administrador" ≠ "Credenciales inválidas") ∧
    ("Usuario no encontrado o credenciales inválidas" ≠
      "Cuenta desactivada. Contacta al administrador") :=
  ⟨rfl, rfl, rfl, by decide, by decide, by decide⟩

/-- C5 (amended): every expected password-login rejection — unresolved
identity, disabled identity, or password not matching the stored hash — is
returned as a non-error result with `success=false` and leaves the
environment untouched; the three cases carry distinct fixed messages. -/
theorem login_expected_rejections (bc : String → String → Bool)
    (mint : String → DocData → String) (now : Nat) (env : Env) (req : LoginRequest) :
    (env.users.find? (fun u => u.email == req.email) = none →
      login bc mint now env req =
        (.ok ⟨false, "Usuario no encontrado o credenciales inválidas", none, "", "", 0, none⟩,
         env)) ∧
    (∀ u, env.users.find? (fun u => u.email == req.email) = some u → u.disabled = true →
      login bc mint now env req =
        (.ok ⟨false, "Cuenta desactivada. Contacta al administrador", none, "", "", 0, none⟩,
         env)) ∧
    (∀ u cred hash, env.users.find? (fun u => u.email == req.email) = some u →
      u.disabled = false → getDocument env.db "user_credentials" u.uid = .ok cred →
      asStr (getField cred "password_hash") = some hash → bc hash req.password = false →
      login bc mint now env req =
        (.ok ⟨false, "Credenciales inválidas", none, "", "", 0, none⟩, env)) := by
  refine ⟨?_, ?_, ?_⟩
  · intro hf
    unfold login getUserByEmail
    rw [hf]
  · intro u hf hd
    unfold login getUserByEmail
    rw [hf]
    simp only []
    rw [hd]
    simp only [if_true]
  · intro u cred hash hf hd hcred hhash hbc
    unfold login getUserByEmail verifyPassword
    rw [hf]
    simp only []
    rw [hd]
    simp only [Bool.false_eq_true, if_false]
    rw [hcred]
    simp only []
    rw [hhash]
    simp only []
    rw [hbc]
    simp only [Bool.not_false, if_true]

/-- C5 witness: the concrete wrong-password login is rejected with
`success=false` and the fixed invalid-credentials message. -/
theorem login_expected_rejections_witness :
    login bcEq mint0 0 c5env ⟨"ana@x.com", "wrong"⟩ =
      (.ok ⟨false, "Credenciales inválidas", none, "", "", 0, none⟩, c5env) :=
  (login_expected_rejections bcEq mint0 0 c5env ⟨"ana@x.com", "wrong"⟩).2.2
    c5userOk [("password_hash", Value.str "pw-correct")] "pw-correct" rfl rfl rfl rfl rfl

theorem queryDocuments_active (db : DB) (uid : String) :
    queryDocuments db "user_sessions" (activeSessionOpts uid) =
      (db.docs.filter (fun d => d.collection == "user_sessions" &&
        (activeSessionOpts uid).filters.all (fun f => evalFilter d.data f))).map
        (fun d => ⟨d.docID, d.data⟩) := rfl

theorem active_doc_in_query (db : DB) (uid : String) (d : FsDoc)
    (hd : d ∈ db.docs) (hcol : d.collection = "user_sessions")
    (huid : getField d.data "uid" = some (.str uid))
    (hact : getField d.data "active" = some (.bool true)) :
    d.docID ∈ (queryDocuments db "user_sessions" (activeSessionOpts uid)).map
      (fun s => s.id) := by
  rw [queryDocuments_active, List.map_map]
  apply List.mem_map.mpr
  refine ⟨d, ?_, rfl⟩
  apply List.mem_filter.mpr
  refine ⟨hd, ?_⟩
  simp only [activeSessionOpts, List.all_cons, List.all_nil, Bool.and_true,
    Bool.and_eq_true, beq_iff_eq]
  refine ⟨hcol, ?_, ?_⟩
  · unfold evalFilter
    simp only []
    rw [huid]
    simp only [beq_self_eq_true, if_true]
    exact (valueBeq_str_iff _ _).mpr rfl
  · unfold evalFilter
    simp only []
    rw [hact]
    simp only [beq_self_eq_true, if_true]
    exact (valueBeq_bool_iff _ _).mpr rfl

theorem stageBatch_updates (now : Nat) (n : Nat) :
    ∀ (l : List Document),
      stageBatch now n (l.map (fun s => BatchOp.mk "update" "user_sessions" s.id
        [("active", Value.bool false), ("ended_at", Value.time now)])) =
      (.ok (l.map (fun s => StagedWrite.setMerge "user_sessions" s.id (deactPatch now)), n),
       l.map (fun s => BatchOp.mk "update" "user_sessions" s.id (deactPatch now))) := by
  intro l
  induction l with
  | nil => rfl
  | cons s l ih =>
    simp only [List.map_cons, stageBatch]
    rw [show (("update" : String) == "create") = false from rfl,
        show (("update" : String) == "update") = true from rfl]
    simp only [Bool.false_eq_true, if_false, if_true]
    rw [ih]
    rfl

theorem deactivate_fold (now : Nat) (uid : String) :
    ∀ (ids : List String) (docs : List FsDoc),
      (∀ d ∈ docs, d.collection = "user_sessions" →
        getField d.data "uid" = some (.str uid) →
        (getField d.data "active" = some (.bool false) ∨ d.docID ∈ ids)) →
      ∀ d ∈ applyWrites docs (ids.map (fun i =>
          StagedWrite.setMerge "user_sessions" i (deactPatch now))),
        d.collection = "user_sessions" → getField d.data "uid" = some (.str uid) →
        getField d.data "active" = some (.bool false) := by
  intro ids
  induction ids with
  | nil =>
    intro docs hpre d hd hcol huid
    exact (hpre d hd hcol huid).resolve_right (by simp)
  | cons i ids ih =>
    intro docs hpre
    have hstep : applyWrites docs ((i :: ids).map (fun j =>
        StagedWrite.setMerge "user_sessions" j (deactPatch now))) =
        applyWrites (mergeDocs docs "user_sessions" i (deactPatch now))
          (ids.map (fun j => StagedWrite.setMerge "user_sessions" j (deactPatch now))) := rfl
    rw [hstep]
    apply ih
    intro d2 hd2 hcol2 huid2
    unfold mergeDocs at hd2
    by_cases hany : (docs.any (fun x => x.collection == "user_sessions" && x.docID == i)) = true
    · rw [if_pos hany] at hd2
      obtain ⟨d0, hd0, hmap⟩ := List.mem_map.mp hd2
      by_cases hcond : (d0.collection == "user_sessions" && d0.docID == i) = true
      · rw [if_pos hcond] at hmap
        left
        rw [← hmap]
        simp only []
        rw [getField_mergeFields, (patchGet_deactPatch now).2.2.1]
      · rw [if_neg hcond] at hmap
        rcases hpre d0 hd0 (by rw [hmap]; exact hcol2) (by rw [hmap]; exact huid2)
          with hact | hmem
        · left
          rw [← hmap]
          exact hact
        · rcases List.mem_cons.mp hmem with heq | hmem2
          · exfalso
            apply hcond
            rw [Bool.and_eq_true]
            exact ⟨beq_iff_eq.mpr (by rw [hmap]; exact hcol2), beq_iff_eq.mpr heq⟩
          · right
            rw [← hmap]
            exact hmem2
    · rw [if_neg hany] at hd2
      rcases List.mem_append.mp hd2 with hin | hnew
      · rcases hpre d2 hin hcol2 huid2 with hact | hmem
        · left
          exact hact
        · rcases List.mem_cons.mp hmem with heq | hmem2
          · exfalso
            apply hany
            apply List.any_eq_true.mpr
            have hb2 : (d2.collection == "user_sessions") = true ∧ (d2.docID == i) = true :=
              ⟨beq_iff_eq.mpr hcol2, beq_iff_eq.mpr heq⟩
            exact ⟨d2, hin, by rw [Bool.and_eq_true]; exact hb2⟩
          · right
            exact hmem2
      · exfalso
        have hd2e : d2 = ⟨"user_sessions", i, mergeFields [] (deactPatch now)⟩ :=
          List.mem_singleton.mp hnew
        rw [hd2e] at huid2
        simp only [] at huid2
        rw [getField_mergeFields, (patchGet_deactPatch now).1] at huid2
        simp [getField] at huid2

theorem q_preserved_merge_other (uid col i : String) (p : DocData) (docs : List FsDoc)
    (hcol : (col == "user_sessions") = false)
    (hq : ∀ d ∈ docs, d.collection = "user_sessions" →
      getField d.data "uid" = some (.str uid) →
      getField d.data "active" = some (.bool false)) :
    ∀ d ∈ mergeDocs docs col i p, d.collection = "user_sessions" →
      getField d.data "uid" = some (.str uid) →
      getField d.data "active" = some (.bool false) := by
  intro d2 hd2 hc2 hu2
  unfold mergeDocs at hd2
  by_cases hany : (docs.any (fun x => x.collection == col && x.docID == i)) = true
  · rw [if_pos hany] at hd2
    obtain ⟨d0, hd0, hmap⟩ := List.mem_map.mp hd2
    by_cases hcond : (d0.collection == col && d0.docID == i) = true
    · exfalso
      rw [if_pos hcond] at hmap
      rw [← hmap] at hc2
      simp only [] at hc2
      have hcond2 := hcond
      rw [Bool.and_eq_true] at hcond2
      have hcc : d0.collection = col := beq_iff_eq.mp hcond2.1
      rw [hc2] at hcc
      exact absurd (beq_iff_eq.mpr hcc.symm) (by simp [hcol])
    · rw [if_neg hcond] at hmap
      rw [← hmap] at hc2 hu2 ⊢
      exact hq d0 hd0 hc2 hu2
  · rw [if_neg hany] at hd2
    rcases List.mem_append.mp hd2 with hin | hnew
    · exact hq d2 hin hc2 hu2
    · exfalso
      have hd2e : d2 = ⟨col, i, mergeFields [] p⟩ := List.mem_singleton.mp hnew
      rw [hd2e] at hc2
      simp only [] at hc2
      exact absurd (beq_iff_eq.mpr hc2) (by simp [hcol])

theorem wt_preserved_deact (now : Nat) (uid i : String) (docs : List FsDoc)
    (hwt : ∀ d ∈ docs, d.collection = "user_sessions" →
      getField d.data "uid" = some (.str uid) →
      ∃ b, getField d.data "active" = some (.bool b)) :
    ∀ d ∈ mergeDocs docs "user_sessions" i (deactPatch now),
      d.collection = "user_sessions" → getField d.data "uid" = some (.str uid) →
      ∃ b, getField d.data "active" = some (.bool b) := by
  intro d2 hd2 hc2 hu2
  unfold mergeDocs at hd2
  by_cases hany : (docs.any (fun x => x.collection == "user_sessions" && x.docID == i)) = true
  · rw [if_pos hany] at hd2
    obtain ⟨d0, hd0, hmap⟩ := List.mem_map.mp hd2
    by_cases hcond : (d0.collection == "user_sessions" && d0.docID == i) = true
    · rw [if_pos hcond] at hmap
      refine ⟨false, ?_⟩
      rw [← hmap]
      simp only []
      rw [getField_mergeFields, (patchGet_deactPatch now).2.2.1]
    · rw [if_neg hcond] at hmap
      rw [← hmap] at hc2 hu2 ⊢
      exact hwt d0 hd0 hc2 hu2
  · rw [if_neg hany] at hd2
    rcases List.mem_append.mp hd2 with hin | hnew
    · exact hwt d2 hin hc2 hu2
    · exfalso
      have hd2e : d2 = ⟨"user_sessions", i, mergeFields [] (deactPatch now)⟩ :=
        List.mem_singleton.mp hnew
      rw [hd2e] at hu2
      simp only [] at hu2
      rw [getField_mergeFields, (patchGet_deactPatch now).1] at hu2
      simp [getField] at hu2

theorem invalidateAll_spec (now : Nat) (db : DB) (uid : String) :
    invalidateAllUserSessions now db uid =
      (.ok (), ⟨applyWrites db.docs
        ((queryDocuments db "user_sessions" (activeSessionOpts uid)).map
          (fun s => StagedWrite.setMerge "user_sessions" s.id (deactPatch now))),
        db.nextAuto⟩) := by
  unfold invalidateAllUserSessions
  cases hq : queryDocuments db "user_sessions" (activeSessionOpts uid) with
  | nil => rfl
  | cons s l =>
    simp only [List.length_cons, List.map_cons]
    rw [if_pos (Nat.succ_pos _)]
    have hsb := stageBatch_updates now db.nextAuto (s :: l)
    simp only [List.map_cons] at hsb
    unfold batchWrite
    rw [hsb]

theorem logout_post_sessions (now : Nat) (uid : String) (db1 : DB)
    (hwt1 : ∀ d ∈ db1.docs, d.collection = "user_sessions" →
      getField d.data "uid" = some (.str uid) →
      ∃ b, getField d.data "active" = some (.bool b)) :
    ∀ d ∈ (updateLastLogout now (invalidateAllUserSessions now db1 uid).2 uid).docs,
      d.collection = "user_sessions" → getField d.data "uid" = some (.str uid) →
      getField d.data "active" = some (.bool false) := by
  have hspec := invalidateAll_spec now db1 uid
  have hq2 : ∀ d ∈ applyWrites db1.docs
      ((queryDocuments db1 "user_sessions" (activeSessionOpts uid)).map
        (fun s => StagedWrite.setMerge "user_sessions" s.id (deactPatch now))),
      d.collection = "user_sessions" → getField d.data "uid" = some (.str uid) →
      getField d.data "active" = some (.bool false) := by
    have hmm : (queryDocuments db1 "user_sessions" (activeSessionOpts uid)).map
        (fun s => StagedWrite.setMerge "user_sessions" s.id (deactPatch now)) =
        ((queryDocuments db1 "user_sessions" (activeSessionOpts uid)).map
          (fun s => s.id)).map
          (fun i => StagedWrite.setMerge "user_sessions" i (deactPatch now)) := by
      rw [List.map_map]
      rfl
    rw [hmm]
    apply deactivate_fold now uid
    intro d hd hcol huid
    obtain ⟨b, hb⟩ := hwt1 d hd hcol huid
    cases b with
    | false => exact Or.inl hb
    | true => exact Or.inr (active_doc_in_query db1 uid d hd hcol huid hb)
  intro d hd hcol huid
  rw [hspec] at hd
  exact q_preserved_merge_other uid "user_activity" uid
    (setField [("last_logout", Value.time now)] "updated_at" (Value.time now))
    _ rfl hq2 d hd hcol huid

/-- C8: a `Logout` request deactivates every stored session of the request's
user — not only the optionally named session: after the call, every
`user_sessions` document whose `uid` matches the request (given all such
documents carry a boolean `active` field) has `active=false`, and the call
reports success. -/
theorem logout_deactivates_all_user_sessions (now : Nat) (db : DB) (req : LogoutRequest)
    (hwt : ∀ d ∈ db.docs, d.collection = "user_sessions" →
      getField d.data "uid" = some (.str req.uid) →
      ∃ b, getField d.data "active" = some (.bool b)) :
    (logout now db req).1 = .ok ⟨true, "Logout exitoso"⟩ ∧
    (∀ d ∈ ((logout now db req).2).docs, d.collection = "user_sessions" →
      getField d.data "uid" = some (.str req.uid) →
      getField d.data "active" = some (.bool false)) := by
  have hwt1 : ∀ d ∈ (if (req.sessionID == "") = true then db
      else invalidateSession now db req.sessionID).docs,
      d.collection = "user_sessions" → getField d.data "uid" = some (.str req.uid) →
      ∃ b, getField d.data "active" = some (.bool b) := by
    by_cases hs : (req.sessionID == "") = true
    · rw [if_pos hs]
      exact hwt
    · rw [if_neg hs]
      exact wt_preserved_deact now req.uid req.sessionID db.docs hwt
  constructor
  · unfold logout
    simp only []
    rw [invalidateAll_spec]
  · unfold logout
    simp only []
    rw [invalidateAll_spec]
    have hpost := logout_post_sessions now req.uid
      (if (req.sessionID == "") = true then db
       else invalidateSession now db req.sessionID) hwt1
    rw [invalidateAll_spec] at hpost
    exact hpost

/-- C8 witness: logging out user `u1` while naming only session `s1`
deactivates both stored sessions `s1` and `s2`. -/
theorem logout_deactivates_all_user_sessions_witness :
    (logout 1000 c8db c8req).1 = .ok ⟨true, "Logout exitoso"⟩ ∧
    (∀ d ∈ ((logout 1000 c8db c8req).2).docs, d.collection = "user_sessions" →
      getField d.data "uid" = some (.str c8req.uid) →
      getField d.data "active" = some (.bool false)) :=
  logout_deactivates_all_user_sessions 1000 c8db c8req (by
    intro d hd
    rcases List.mem_cons.mp hd with rfl | hor
    · exact fun _ _ => ⟨true, rfl⟩
    · rcases List.mem_cons.mp hor with rfl | hor2
      · exact fun _ _ => ⟨true, rfl⟩
      · simp at hor2)
